import Mathlib

/-!
Verification of the receipt interpretation and classification engine of
`line2notion-receipts` (`src/main.py`), shallowly embedded in Lean 4.

Text is modelled as Lean `String` / `List Char` (Python `str` slicing,
`in`, `strip`, `splitlines` all operate on code points, as do the Lean
counterparts defined here).  Python `re` searches for the five concrete
date patterns of `extract_purchase_date_local` are embedded as hand-rolled
scanners implementing leftmost search with the greedy/backtracking
semantics of those exact patterns.  Floating-point confidences
(1.0, 0.9, 0.85, 0.5) are exactly representable and are modelled as `ℚ`.
External collaborators (Gemini, Vision, Notion, LINE) appear only through
their returned data, passed as explicit arguments.
-/

/-- Python `str.isspace` / regex `\s` character set (`str` patterns). -/
def pyIsSpace (c : Char) : Bool :=
  c = ' ' || c = '\t' || c = '\n' || c = '\x0b' || c = '\x0c' || c = '\r' ||
  (0x1c ≤ c.toNat && c.toNat ≤ 0x1f) || c.toNat = 0x85 || c.toNat = 0xa0 ||
  c.toNat = 0x1680 || (0x2000 ≤ c.toNat && c.toNat ≤ 0x200a) ||
  c.toNat = 0x2028 || c.toNat = 0x2029 || c.toNat = 0x202f ||
  c.toNat = 0x205f || c.toNat = 0x3000

def isDigitCh (c : Char) : Bool := '0' ≤ c && c ≤ '9'

def digitVal (c : Char) : Nat := c.toNat - '0'.toNat

/-- Python `str.strip()` on a code-point list. -/
def stripL (l : List Char) : List Char :=
  ((l.dropWhile pyIsSpace).reverse.dropWhile pyIsSpace).reverse

/-- Python `in` (substring test): does `pat` occur in the list? -/
def hasSubstr (pat : List Char) : List Char → Bool
  | [] => pat.isEmpty
  | c :: t => pat.isPrefixOf (c :: t) || hasSubstr pat t

/-- Python `str.replace pat rep` (all non-overlapping occurrences, left to
right); `fuel` is instantiated with the length of the subject. -/
def replaceGo (pat rep : List Char) : Nat → List Char → List Char
  | 0, l => l
  | _, [] => []
  | f + 1, c :: t =>
    if pat.isPrefixOf (c :: t) then rep ++ replaceGo pat rep f ((c :: t).drop pat.length)
    else c :: replaceGo pat rep f t

def replaceL (pat rep l : List Char) : List Char := replaceGo pat rep l.length l

/-- Regex `re.sub(r"\s+", " ", ·)`: each maximal whitespace run becomes one
ASCII space; `fuel` is instantiated with the length of the subject. -/
def collapseGo : Nat → List Char → List Char
  | 0, _ => []
  | _, [] => []
  | f + 1, c :: t =>
    if pyIsSpace c then ' ' :: collapseGo f (t.dropWhile pyIsSpace)
    else c :: collapseGo f t

def collapseWs (l : List Char) : List Char := collapseGo l.length l

/-- Python `str.splitlines()` boundary characters (besides `\r\n`). -/
def isLineBreak (c : Char) : Bool :=
  c = '\n' || c = '\r' || c = '\x0b' || c = '\x0c' ||
  c.toNat = 0x1c || c.toNat = 0x1d || c.toNat = 0x1e ||
  c.toNat = 0x85 || c.toNat = 0x2028 || c.toNat = 0x2029

def splitlinesGo : List Char → List Char → List (List Char)
  | [], acc => if acc.isEmpty then [] else [acc.reverse]
  | '\r' :: '\n' :: t, acc => acc.reverse :: splitlinesGo t []
  | c :: t, acc =>
    if isLineBreak c then acc.reverse :: splitlinesGo t []
    else splitlinesGo t (c :: acc)

def splitlinesL (l : List Char) : List (List Char) := splitlinesGo l []

/-- Python `str.lower()` restricted to ASCII (the only letters the source
lowercases are ASCII brand names; Japanese text is unaffected). -/
def asciiLower (l : List Char) : List Char := l.map Char.toLower

def strOf (l : List Char) : String := String.mk l

/-- ALLOWED_CATEGORIES from `src/main.py`. -/
def ALLOWED_CATEGORIES : List String :=
  ["食費",
   "交通",
   "日用品（スーパー・ドラッグストア）",
   "医療",
   "犬関係",
   "趣味・娯楽",
   "教育・学習",
   "サブスク（Netflix, Spotify など）",
   "交際費（飲み会・プレゼント）",
   "その他"]

/-- MERCHANT_MAP from `src/main.py`, in insertion order (Python dicts
iterate in insertion order). -/
def MERCHANT_MAP : List (String × String) :=
  [("セブン-イレブン", "食費"),
   ("ファミリーマート", "食費"),
   ("ローソン", "食費"),
   ("スーパー玉出", "食費"),
   ("阪急電鉄", "交通"),
   ("JR", "交通"),
   ("スギ薬局", "日用品（スーパー・ドラッグストア）"),
   ("ココカラファイン", "日用品（スーパー・ドラッグストア）"),
   ("カインズ", "日用品（スーパー・ドラッグストア）"),
   ("スターバックス", "食費"),
   ("ドトール", "食費"),
   ("コーナン", "犬関係"),
   ("ペット", "犬関係")]

/-- KEYWORD_RULES from `src/main.py`. -/
def KEYWORD_RULES : List (List String × String) :=
  [(["切符", "乗車", "運賃", "ICチャージ", "改札"], "交通"),
   (["シャンプー", "洗剤", "トイレットペーパー", "日用品", "ティッシュ", "キッチンペーパー",
     "スポンジ", "歯ブラシ", "歯磨き", "ボディソープ", "ゴミ袋", "洗濯", "柔軟剤", "マスク", "除菌"],
    "日用品（スーパー・ドラッグストア）"),
   (["病院", "クリニック", "薬", "処方"], "医療"),
   (["犬", "ドッグ", "ペット", "フード", "トリミング", "おやつ"], "犬関係"),
   (["弁当", "おにぎり", "サンドイッチ", "パン", "牛乳", "卵", "肉", "野菜", "米", "寿司",
     "刺身", "惣菜", "ビール", "酒", "飲料", "お茶", "コーヒー", "紅茶", "カップ麺"], "食費"),
   (["Netflix", "Spotify", "Adobe", "サブスク", "定額"], "サブスク（Netflix, Spotify など）")]

/-! ## Date extractor (`_to_iso_date`, `_convert_japanese_era`,
`extract_purchase_date_local`) -/

/-- Proleptic-Gregorian leap year, as `datetime` uses. -/
def isLeap (y : Nat) : Bool := y % 4 = 0 && (y % 100 ≠ 0 || y % 400 = 0)

def daysInMonth (y mo : Nat) : Nat :=
  if mo = 2 then (if isLeap y then 29 else 28)
  else if mo = 4 || mo = 6 || mo = 9 || mo = 11 then 30
  else 31

/-- `datetime(year, month, day)` succeeds exactly on these arguments
(`MINYEAR = 1`, `MAXYEAR = 9999`). -/
def dateOk (y mo d : Nat) : Bool :=
  1 ≤ y && y ≤ 9999 && 1 ≤ mo && mo ≤ 12 && 1 ≤ d && d ≤ daysInMonth y mo

def pad2 (n : Nat) : String := if n < 10 then "0" ++ toString n else toString n

def pad4 (n : Nat) : String :=
  if n < 10 then "000" ++ toString n
  else if n < 100 then "00" ++ toString n
  else if n < 1000 then "0" ++ toString n
  else toString n

/-- `datetime(y, mo, d).strftime("%Y-%m-%d")`. -/
def isoFmt (y mo d : Nat) : String := pad4 y ++ "-" ++ pad2 mo ++ "-" ++ pad2 d

/-- `_to_iso_date` from `src/main.py`: the formatted date when
`datetime(year, month, day)` succeeds, `""` when it raises. -/
def toIsoDate (y mo d : Nat) : String := if dateOk y mo d then isoFmt y mo d else ""

/-- `_convert_japanese_era` from `src/main.py`. -/
def convertJapaneseEra (era : String) (y : Nat) : Nat :=
  let e := strOf (stripL era.data)
  if e = "令和" || e = "R" || e = "r" then 2018 + y
  else if e = "平成" || e = "H" || e = "h" then 1988 + y
  else if e = "昭和" || e = "S" || e = "s" then 1925 + y
  else 0

/-- Generic leftmost regex search: try the matcher at every start
position, left to right, and return the first success (Python
`re.search`). -/
def searchPos (m : List Char → Option α) : List Char → Option α
  | [] => none
  | c :: t =>
    match m (c :: t) with
    | some r => some r
    | none => searchPos m t

def isDateSep (c : Char) : Bool := c = '-' || c = '/' || c = '.'

/-- `(20\d{2}|19\d{2})` anchored at the head: a four-digit year starting
`20` or `19`; returns the year and the remaining input. -/
def matchYear4 : List Char → Option (Nat × List Char)
  | c1 :: c2 :: c3 :: c4 :: rest =>
    if ((c1 = '2' && c2 = '0') || (c1 = '1' && c2 = '9')) && isDigitCh c3 && isDigitCh c4 then
      some (1000 * digitVal c1 + 100 * digitVal c2 + 10 * digitVal c3 + digitVal c4, rest)
    else none
  | _ => none

/-- `(\d{1,2})` immediately followed by a date separator, with the greedy
backtracking of the real pattern: two digits are preferred, one is tried
only when the character after the single digit is a separator.  Consumes
the separator. -/
def matchNumThenSep : List Char → Option (Nat × List Char)
  | a :: b :: c :: rest =>
    if isDigitCh a then
      if isDigitCh b then
        if isDateSep c then some (10 * digitVal a + digitVal b, rest) else none
      else if isDateSep b then some (digitVal a, c :: rest)
      else none
    else none
  | [a, b] => if isDigitCh a && isDateSep b then some (digitVal a, []) else none
  | _ => none

/-- Final `(\d{1,2})` of a pattern (nothing follows): greedily take two
digits when available, otherwise one. -/
def matchDayEnd : List Char → Option Nat
  | a :: b :: _ =>
    if isDigitCh a then
      some (if isDigitCh b then 10 * digitVal a + digitVal b else digitVal a)
    else none
  | [a] => if isDigitCh a then some (digitVal a) else none
  | [] => none

/-- `(\d{1,2})` followed (after `\s*`) by a fixed glyph: with greedy
backtracking this succeeds only when the digit run has length 1 or 2;
returns the value and the input after the digits. -/
def matchNum12 : List Char → Option (Nat × List Char)
  | a :: rest =>
    if isDigitCh a then
      match rest with
      | b :: r2 =>
        if isDigitCh b then
          match r2 with
          | c :: _ => if isDigitCh c then none else some (10 * digitVal a + digitVal b, r2)
          | [] => some (10 * digitVal a + digitVal b, [])
        else some (digitVal a, rest)
      | [] => some (digitVal a, [])
    else none
  | [] => none

def skipWs (l : List Char) : List Char := l.dropWhile pyIsSpace

/-- Consume `\s*` then the given glyph. -/
def expectGlyph (g : Char) (l : List Char) : Option (List Char) :=
  match skipWs l with
  | c :: t => if c = g then some t else none
  | [] => none

/-- Tier 1 matcher: year `(20\d{2}|19\d{2})`, then a separator from the
class {-, /, .}, then `(\d{1,2})`, a separator, and a final `(\d{1,2})`,
anchored at the head. -/
def match1At (cs : List Char) : Option (Nat × Nat × Nat) :=
  match matchYear4 cs with
  | some (y, s :: r1) =>
    if isDateSep s then
      match matchNumThenSep r1 with
      | some (mo, r2) =>
        match matchDayEnd r2 with
        | some d => some (y, mo, d)
        | none => none
      | none => none
    else none
  | _ => none

/-- Tier 2 matcher: `(20\d{2}|19\d{2})\s*年\s*(\d{1,2})\s*月\s*(\d{1,2})\s*日`. -/
def match2At (cs : List Char) : Option (Nat × Nat × Nat) :=
  match matchYear4 cs with
  | some (y, r0) =>
    match expectGlyph '年' r0 with
    | some r1 =>
      match matchNum12 (skipWs r1) with
      | some (mo, r2) =>
        match expectGlyph '月' r2 with
        | some r3 =>
          match matchNum12 (skipWs r3) with
          | some (d, r4) =>
            match expectGlyph '日' r4 with
            | some _ => some (y, mo, d)
            | none => none
          | none => none
        | none => none
      | none => none
    | none => none
  | none => none

/-- `(令和|平成|昭和)` anchored at the head. -/
def matchEraGlyph : List Char → Option (String × List Char)
  | c1 :: c2 :: rest =>
    if c1 = '令' && c2 = '和' then some ("令和", rest)
    else if c1 = '平' && c2 = '成' then some ("平成", rest)
    else if c1 = '昭' && c2 = '和' then some ("昭和", rest)
    else none
  | _ => none

/-- Common suffix of tiers 3 and 5:
`\s*(\d{1,2})\s*年\s*(\d{1,2})\s*月\s*(\d{1,2})\s*日`. -/
def matchEraYmd (cs : List Char) : Option (Nat × Nat × Nat) :=
  match matchNum12 (skipWs cs) with
  | some (ey, r1) =>
    match expectGlyph '年' r1 with
    | some r2 =>
      match matchNum12 (skipWs r2) with
      | some (mo, r3) =>
        match expectGlyph '月' r3 with
        | some r4 =>
          match matchNum12 (skipWs r4) with
          | some (d, r5) =>
            match expectGlyph '日' r5 with
            | some _ => some (ey, mo, d)
            | none => none
          | none => none
        | none => none
      | none => none
    | none => none
  | none => none

/-- Tier 3 matcher: `(令和|平成|昭和)\s*(\d{1,2})\s*年\s*(\d{1,2})\s*月\s*(\d{1,2})\s*日`. -/
def match3At (cs : List Char) : Option (String × Nat × Nat × Nat) :=
  match matchEraGlyph cs with
  | some (era, r0) =>
    match matchEraYmd r0 with
    | some (ey, mo, d) => some (era, ey, mo, d)
    | none => none
  | none => none

def isEraLetter (c : Char) : Bool :=
  c = 'R' || c = 'r' || c = 'H' || c = 'h' || c = 'S' || c = 's'

/-- `era_map` of tiers 4 and 5 (total on `[RrHhSs]`, `""` otherwise). -/
def eraOfLetter (c : Char) : String :=
  if c = 'R' || c = 'r' then "令和"
  else if c = 'H' || c = 'h' then "平成"
  else if c = 'S' || c = 's' then "昭和"
  else ""

/-- Tier 4 matcher: `([RrHhSs])`, then `(\d{1,2})`, a separator from
{., /, -}, `(\d{1,2})`, a separator, and a final `(\d{1,2})`. -/
def match4At : List Char → Option (Char × Nat × Nat × Nat)
  | c :: rest =>
    if isEraLetter c then
      match matchNumThenSep rest with
      | some (ey, r1) =>
        match matchNumThenSep r1 with
        | some (mo, r2) =>
          match matchDayEnd r2 with
          | some d => some (c, ey, mo, d)
          | none => none
        | none => none
      | none => none
    else none
  | [] => none

/-- Tier 5 matcher: `([RrHhSs])\s*(\d{1,2})\s*年\s*(\d{1,2})\s*月\s*(\d{1,2})\s*日`. -/
def match5At : List Char → Option (Char × Nat × Nat × Nat)
  | c :: rest =>
    if isEraLetter c then
      match matchEraYmd rest with
      | some (ey, mo, d) => some (c, ey, mo, d)
      | none => none
    else none
  | [] => none

def scan1 (cs : List Char) : Option (Nat × Nat × Nat) := searchPos match1At cs
def scan2 (cs : List Char) : Option (Nat × Nat × Nat) := searchPos match2At cs
def scan3 (cs : List Char) : Option (String × Nat × Nat × Nat) := searchPos match3At cs
def scan4 (cs : List Char) : Option (Char × Nat × Nat × Nat) := searchPos match4At cs
def scan5 (cs : List Char) : Option (Char × Nat × Nat × Nat) := searchPos match5At cs

/-- Shared tail of every tier: the candidate `(y, mo, d)` is accepted only
when `_to_iso_date` validates it; otherwise the tier yields nothing and
the extractor continues with the next tier. -/
def acceptDate (o : Option (Nat × Nat × Nat)) : Option String :=
  match o with
  | none => none
  | some (y, mo, d) =>
    let iso := toIsoDate y mo d
    if iso = "" then none else some iso

def tier1Result (cs : List Char) : Option String := acceptDate (scan1 cs)

def tier2Result (cs : List Char) : Option String := acceptDate (scan2 cs)

def tier3Result (cs : List Char) : Option String :=
  acceptDate ((scan3 cs).map fun r => (convertJapaneseEra r.1 r.2.1, r.2.2.1, r.2.2.2))

def tier4Result (cs : List Char) : Option String :=
  acceptDate ((scan4 cs).map fun r => (convertJapaneseEra (eraOfLetter r.1) r.2.1, r.2.2.1, r.2.2.2))

def tier5Result (cs : List Char) : Option String :=
  acceptDate ((scan5 cs).map fun r => (convertJapaneseEra (eraOfLetter r.1) r.2.1, r.2.2.1, r.2.2.2))

/-- `text.replace("年 ", "年").replace("月 ", "月").replace("日 ", "日")`. -/
def preprocessDateText (l : List Char) : List Char :=
  replaceL "日 ".data "日".data (replaceL "月 ".data "月".data (replaceL "年 ".data "年".data l))

/-- Tiers 2–5 of the extractor, in order, `""` when all fail. -/
def tiersFrom2 (cs : List Char) : String :=
  match tier2Result cs with
  | some iso => iso
  | none =>
    match tier3Result cs with
    | some iso => iso
    | none =>
      match tier4Result cs with
      | some iso => iso
      | none =>
        match tier5Result cs with
        | some iso => iso
        | none => ""

/-- The full tier cascade on preprocessed text. -/
def dateCascade (cs : List Char) : String :=
  match tier1Result cs with
  | some iso => iso
  | none => tiersFrom2 cs

/-- `extract_purchase_date_local` from `src/main.py`. -/
def extract_purchase_date_local (ocr_text : String) : String :=
  if ocr_text = "" then ""
  else dateCascade (preprocessDateText ocr_text.data)

/-! ## Store name normalization and extraction (`normalize_store_name`,
`heuristic_extract_store_name`) -/

/-- The corporate-entity tokens stripped by `normalize_store_name`, in
source order. -/
def CORPORATE_TOKENS : List String := ["株式会社", "合同会社", "有限会社", "(株)", "㈱"]

/-- One pass of the token loop: `name = name.replace(token, "").strip()`. -/
def stripToken (name : List Char) (token : String) : List Char :=
  stripL (replaceL token.data [] name)

/-- `normalize_store_name` from `src/main.py`. -/
def normalize_store_name (raw : String) : String :=
  if raw = "" then ""
  else
    let name := stripL raw.data
    let name := CORPORATE_TOKENS.foldl stripToken name
    let name := stripL (collapseWs (replaceL "　".data " ".data name))
    strOf (name.take 50)

/-- Python regex `\w` (word character), modelled over the character
repertoire occurring on Japanese receipts: ASCII alphanumerics and
underscore, CJK ideographs, kana (including iteration/prolonged-sound
marks), and fullwidth alphanumerics. -/
def pyIsWordChar (c : Char) : Bool :=
  ('a' ≤ c && c ≤ 'z') || ('A' ≤ c && c ≤ 'Z') || ('0' ≤ c && c ≤ '9') || c = '_' ||
  (0x3041 ≤ c.toNat && c.toNat ≤ 0x3096) || (0x309d ≤ c.toNat && c.toNat ≤ 0x309f) ||
  (0x30a1 ≤ c.toNat && c.toNat ≤ 0x30fa) || (0x30fc ≤ c.toNat && c.toNat ≤ 0x30ff) ||
  (0x3400 ≤ c.toNat && c.toNat ≤ 0x9fff) || c.toNat = 0x3005 || c.toNat = 0x3006 ||
  (0xff10 ≤ c.toNat && c.toNat ≤ 0xff19) || (0xff21 ≤ c.toNat && c.toNat ≤ 0xff3a) ||
  (0xff41 ≤ c.toNat && c.toNat ≤ 0xff5a) || (0xff66 ≤ c.toNat && c.toNat ≤ 0xff9f)

/-- A character kept by `re.sub(r"[^\w一-龠ぁ-んァ-ヶー・\-\s]", "", ·)`: the
length check `< 2` of the heading heuristic counts exactly these. -/
def isNameLikeChar (c : Char) : Bool :=
  pyIsWordChar c || (0x4e00 ≤ c.toNat && c.toNat ≤ 0x9fa0) ||
  (0x3041 ≤ c.toNat && c.toNat ≤ 0x3093) || (0x30a1 ≤ c.toNat && c.toNat ≤ 0x30f6) ||
  c.toNat = 0x30fc || c.toNat = 0x30fb || c = '-' || pyIsSpace c

/-- Step 1 of `heuristic_extract_store_name`: first merchant key occurring
in the text; among the lines containing it, the first longest one.
(The loop breaks at the first key found in the text; `max(…, key=len)`
returns the first maximal element.) -/
def firstLongest : List Char → List (List Char) → List Char
  | best, [] => best
  | best, x :: t => firstLongest (if x.length > best.length then x else best) t

def merchantLoop : List (String × String) → List Char → Option (List Char)
  | [], _ => none
  | (k, _) :: rest, text =>
    if hasSubstr k.data text then
      match (splitlinesL text).filter (fun ln => hasSubstr k.data ln) with
      | [] => merchantLoop rest text
      | h :: t => some (firstLongest h t)
    else merchantLoop rest text

/-- Step 2 word list of `heuristic_extract_store_name`. -/
def ENGLISH_BRANDS : List String := ["FamilyMart", "LAWSON", "Seven", "Starbucks", "DOUTOR"]

def englishHit (lower : List Char) : Option String :=
  ENGLISH_BRANDS.find? (fun w => hasSubstr (asciiLower w.data) lower)

/-- Ban words of the heading heuristic. -/
def BAN_WORDS : List String :=
  ["領収", "領収書", "レシート", "明細", "控え", "ご利用", "合計", "小計", "税込", "税",
   "No", "TEL", "電話", "日時", "日付", "時間", "売上", "レジ", "お買上"]

def isBannedLine (ln : List Char) : Bool := BAN_WORDS.any (fun b => hasSubstr b.data ln)

/-- `re.search(r"店|本店|支店", ln)`. -/
def isBranchLine (ln : List Char) : Bool :=
  hasSubstr "店".data ln || hasSubstr "本店".data ln || hasSubstr "支店".data ln

/-- `re.search(r"スーパー|ドラッグ|マート|コーヒー|カフェ|電鉄|百貨店|ショッピング|モール", ln)`. -/
def BRAND_WORDS : List String :=
  ["スーパー", "ドラッグ", "マート", "コーヒー", "カフェ", "電鉄", "百貨店", "ショッピング", "モール"]

def isBrandLine (ln : List Char) : Bool := BRAND_WORDS.any (fun b => hasSubstr b.data ln)

/-- `combined = brand_line if len(brand_line) >= len(branch_line) else
f"{brand_line} {branch_line}"`. -/
def combineBrandBranch (brand branch : List Char) : List Char :=
  if branch.length ≤ brand.length then brand else brand ++ ' ' :: branch

/-- The head-lines loop of step 3, carrying the latest branch-style and
brand-style lines; combines at the first moment both are present. -/
def scanHead : List (List Char) → List Char → List Char → Option (List Char)
  | [], _, _ => none
  | ln :: rest, branch, brand =>
    if isBannedLine ln then scanHead rest branch brand
    else if (ln.filter isNameLikeChar).length < 2 then scanHead rest branch brand
    else
      let branch2 := if isBranchLine ln then ln else branch
      let brand2 := if isBrandLine ln then ln else brand
      if !branch2.isEmpty && !brand2.isEmpty then some (combineBrandBranch brand2 branch2)
      else scanHead rest branch2 brand2

/-- The first ≤ 20 stripped non-blank lines of the (stripped) text. -/
def headLines (text : List Char) : List (List Char) :=
  (((splitlinesL text).map stripL).filter (fun ln => !ln.isEmpty)).take 20

/-- Steps 2–4 of `heuristic_extract_store_name` (reached when step 1
produced no nonempty candidate). -/
def heuristicTail (text lower : List Char) : String :=
  match englishHit lower with
  | some w => normalize_store_name w
  | none =>
    let head := headLines text
    match scanHead head [] [] with
    | some combined => normalize_store_name (strOf combined)
    | none => normalize_store_name (strOf (head.headD []))

/-- `heuristic_extract_store_name` from `src/main.py`. -/
def heuristic_extract_store_name (ocr_text : String) : String :=
  if ocr_text = "" then ""
  else
    let text := stripL ocr_text.data
    let lower := asciiLower text
    match merchantLoop MERCHANT_MAP text with
    | some cand =>
      let best := normalize_store_name (strOf cand)
      if best ≠ "" then best else heuristicTail text lower
    | none => heuristicTail text lower

/-! ## Classification (`rule_classify`, `ai_classify`, `classify_category`) -/

def anyStoreWord (words : List String) (sn : List Char) : Bool :=
  words.any (fun w => hasSubstr w.data sn)

/-- `rule_classify` from `src/main.py`.  A result is
`(category, confidence, source)`; `None` becomes `none`. -/
def rule_classify (store_name item_name : String) : Option (String × ℚ × String) :=
  let fromStore : Option (String × ℚ × String) :=
    if store_name = "" then none
    else
      match MERCHANT_MAP.find? (fun p =>
          p.1.data.isPrefixOf (stripL store_name.data) || hasSubstr p.1.data store_name.data) with
      | some p => some (p.2, 1, "rule")
      | none =>
        let sn := store_name.data
        if anyStoreWord ["ドラッグ", "薬局", "ココカラ", "マツキヨ", "スギ薬局", "ウェルシア"] sn then
          some ("日用品（スーパー・ドラッグストア）", 17/20, "rule")
        else if anyStoreWord ["スーパー", "マート", "マーケット", "百貨店", "食品館", "生鮮", "フレッシュ"] sn then
          some ("食費", 17/20, "rule")
        else if anyStoreWord ["電鉄", "駅", "JR", "バス", "地下鉄", "メトロ", "IC", "切符"] sn then
          some ("交通", 9/10, "rule")
        else if anyStoreWord ["カフェ", "コーヒー", "ベーカリー", "パン", "スターバックス", "ドトール"] sn then
          some ("食費", 17/20, "rule")
        else none
  match fromStore with
  | some r => some r
  | none =>
    let text := asciiLower (store_name ++ " " ++ item_name).data
    match KEYWORD_RULES.find? (fun g => g.1.any (fun w => hasSubstr (asciiLower w.data) text)) with
    | some g => some (g.2, 9/10, "rule")
    | none => none

/-- Outcome of the defensive JSON-parse pipeline of `ai_classify`
(strict `json.loads`, then regex-extracted `{...}` span, then the fixed
fallback object): `none` models total parse failure (the fallback object
is then used); `category` is the `"category"` value when present as a
string; `confidence` is `none` when the key is absent (default `0.5`),
`some none` when `float(...)` raises (fallback `0.5`), and
`some (some q)` for a parsed numeric value `q`. -/
structure OracleClassifyData where
  category : Option String
  confidence : Option (Option ℚ)

/-- Lines 384–395 of `src/main.py` (`ai_classify` after the oracle call
and parse pipeline): category coercion into the closed set and
confidence clamping. -/
def ai_classify (parsed : Option OracleClassifyData) : String × ℚ × String :=
  let data := parsed.getD ⟨some "その他", some (some (1/2))⟩
  let cat0 := data.category.getD "その他"
  let cat := if ALLOWED_CATEGORIES.contains cat0 then cat0 else "その他"
  let conf0 :=
    match data.confidence with
    | none => (1 : ℚ)/2
    | some none => (1 : ℚ)/2
    | some (some q) => q
  let conf := max 0 (min 1 conf0)
  (cat, conf, "ai")

/-- `classify_category` from `src/main.py`: the rule tier, falling back to
the AI tier only when no rule matches.  `amount` is forwarded only into
the oracle prompt; the oracle's reply is represented by `parsed`. -/
def classify_category (store_name item_name : String) (_amount : Option ℚ)
    (parsed : Option OracleClassifyData) : String × ℚ × String :=
  match rule_classify store_name item_name with
  | some hit => hit
  | none => ai_classify parsed

/-! ## Line-item parser (`parse_items_csv`) -/

def isAsciiLetterCh (c : Char) : Bool :=
  ('a' ≤ c && c ≤ 'z') || ('A' ≤ c && c ≤ 'Z')

/-- One `re.sub(r"```[a-zA-Z]*\n?", "", ·)` pass: every code-fence marker,
an optional language tag and an optional following newline are removed;
scanning resumes after each removed match (non-overlapping).  `fuel` is
instantiated with the length of the subject.  (The subsequent
`.replace("```", "")` of the source is the identity afterwards but is
applied anyway by `stripFences`.) -/
def stripFencesGo : Nat → List Char → List Char
  | 0, l => l
  | _, [] => []
  | f + 1, c :: t =>
    if "```".data.isPrefixOf (c :: t) then
      let r1 := ((c :: t).drop 3).dropWhile isAsciiLetterCh
      stripFencesGo f (match r1 with | '\n' :: r => r | _ => r1)
    else c :: stripFencesGo f t

def stripFences (l : List Char) : List Char :=
  replaceL "```".data [] (stripFencesGo l.length l)

/-- Record splitting of `csv.reader` over a `StringIO`: rows are separated
by newlines; a trailing newline does not produce a final empty row. -/
def csvRecords (l : List Char) : List (List Char) := splitlinesGo l []

/-- Field splitting of one record on commas.  (The `csv` quoting rules are
not exercised by the repository's quote-free oracle output; an empty
record gives `[""]` here where `csv` gives `[]` — both are discarded by
the `len(row) < 2` guard of `parse_items_csv`.) -/
def splitCommaGo : List Char → List Char → List (List Char)
  | acc, [] => [acc.reverse]
  | acc, c :: t =>
    if c = ',' then acc.reverse :: splitCommaGo [] t
    else splitCommaGo (c :: acc) t

def csvFields (rec : List Char) : List (List Char) := splitCommaGo [] rec

/-- The per-row step of `parse_items_csv`: drop rows with fewer than two
fields, skip a header row (`"商品" in row[0] and "価格" in row[1]`), and
keep `[row[0].strip(), row[1].strip()]`. -/
def itemsRowStep : List (List Char) → Option (List String)
  | f0 :: f1 :: _ =>
    if hasSubstr "商品".data f0 && hasSubstr "価格".data f1 then none
    else some [strOf (stripL f0), strOf (stripL f1)]
  | _ => none

/-- `parse_items_csv` from `src/main.py`. -/
def parse_items_csv (csv_text : String) : List (List String) :=
  ((csvRecords (stripFences csv_text.data)).map csvFields).filterMap itemsRowStep

/-! ## Receipt identity (`build_receipt_id`) -/

def w32 (n : Nat) : Nat := n % 4294967296

def rotl (k n : Nat) : Nat := w32 ((n <<< k) + (n >>> (32 - k)))

/-- UTF-8 encoding of one scalar value (Python `str.encode("utf-8")`). -/
def utf8EncChar (c : Char) : List Nat :=
  let u := c.toNat
  if u < 128 then [u]
  else if u < 2048 then [192 + u / 64, 128 + u % 64]
  else if u < 65536 then [224 + u / 4096, 128 + (u / 64) % 64, 128 + u % 64]
  else [240 + u / 262144, 128 + (u / 4096) % 64, 128 + (u / 64) % 64, 128 + u % 64]

def utf8Bytes (l : List Char) : List Nat := (l.map utf8EncChar).flatten

def sha1LenBytes (bits : Nat) : List Nat :=
  [bits >>> 56 % 256, bits >>> 48 % 256, bits >>> 40 % 256, bits >>> 32 % 256,
   bits >>> 24 % 256, bits >>> 16 % 256, bits >>> 8 % 256, bits % 256]

/-- SHA-1 message padding: `0x80`, zeros to 56 mod 64, then the bit length
as eight big-endian bytes. -/
def sha1Pad (msg : List Nat) : List Nat :=
  msg ++ 128 :: List.replicate ((119 - msg.length % 64) % 64) 0 ++ sha1LenBytes (8 * msg.length)

def bytesToWords : List Nat → List Nat
  | b0 :: b1 :: b2 :: b3 :: r => (((b0 * 256 + b1) * 256 + b2) * 256 + b3) :: bytesToWords r
  | _ => []

def chunk16 : Nat → List Nat → List (List Nat)
  | 0, _ => []
  | _, [] => []
  | f + 1, ws => ws.take 16 :: chunk16 f (ws.drop 16)

/-- SHA-1 message-schedule expansion; the accumulator holds the schedule
in reverse. -/
def sha1Expand : Nat → List Nat → List Nat
  | 0, acc => acc
  | f + 1, acc =>
    sha1Expand f (rotl 1 (Nat.xor (Nat.xor (acc.getD 2 0) (acc.getD 7 0))
      (Nat.xor (acc.getD 13 0) (acc.getD 15 0))) :: acc)

def sha1Schedule (block : List Nat) : List Nat := (sha1Expand 64 block.reverse).reverse

/-- Round function and constant for round `t`. -/
def sha1FK (t b c d : Nat) : Nat × Nat :=
  if t < 20 then (Nat.lor (Nat.land b c) (Nat.land (4294967295 - b) d), 1518500249)
  else if t < 40 then (Nat.xor (Nat.xor b c) d, 1859775393)
  else if t < 60 then (Nat.lor (Nat.lor (Nat.land b c) (Nat.land b d)) (Nat.land c d), 2400959708)
  else (Nat.xor (Nat.xor b c) d, 3395469782)

def sha1Rounds : Nat → Nat × Nat × Nat × Nat × Nat → List Nat → Nat × Nat × Nat × Nat × Nat
  | _, st, [] => st
  | t, (a, b, c, d, e), w :: ws =>
    let fk := sha1FK t b c d
    sha1Rounds (t + 1) (w32 (rotl 5 a + fk.1 + e + fk.2 + w), a, rotl 30 b, c, d) ws

def sha1Block (h : Nat × Nat × Nat × Nat × Nat) (block : List Nat) :
    Nat × Nat × Nat × Nat × Nat :=
  match sha1Rounds 0 h (sha1Schedule block) with
  | (a, b, c, d, e) =>
    (w32 (h.1 + a), w32 (h.2.1 + b), w32 (h.2.2.1 + c), w32 (h.2.2.2.1 + d), w32 (h.2.2.2.2 + e))

/-- SHA-1 digest of the UTF-8 encoding of a string, as five 32-bit words. -/
def sha1 (s : String) : Nat × Nat × Nat × Nat × Nat :=
  let ws := bytesToWords (sha1Pad (utf8Bytes s.data))
  (chunk16 ws.length ws).foldl sha1Block (1732584193, 4023233417, 2562383102, 271733878, 3285377520)

def hexDig (n : Nat) : Char := if n < 10 then Char.ofNat (48 + n) else Char.ofNat (87 + n)

def hex8 (n : Nat) : List Char :=
  [hexDig (n / 268435456 % 16), hexDig (n / 16777216 % 16), hexDig (n / 1048576 % 16),
   hexDig (n / 65536 % 16), hexDig (n / 4096 % 16), hexDig (n / 256 % 16),
   hexDig (n / 16 % 16), hexDig (n % 16)]

/-- `hashlib.sha1(...).hexdigest()`: 40 lowercase hex characters. -/
def sha1Hexdigest (s : String) : String :=
  match sha1 s with
  | (h0, h1, h2, h3, h4) => strOf (hex8 h0 ++ hex8 h1 ++ hex8 h2 ++ hex8 h3 ++ hex8 h4)

/-- `build_receipt_id` from `src/main.py`.  The two optional arguments
mirror the `str | None` parameters (`None` is replaced by `""`). -/
def build_receipt_id (purchase_date store_name : String)
    (extracted_text line_message_id : Option String) : String :=
  let base := purchase_date ++ "::" ++ store_name ++ "::" ++ line_message_id.getD "" ++ "::" ++
    strOf ((extracted_text.getD "").data.take 5000)
  let digest := strOf ((sha1Hexdigest base).data.take 12)
  purchase_date ++ "_" ++ strOf (stripL store_name.data) ++ "_" ++ digest

/-! ## Header resolution (`handle_image`, lines 555–566) -/

/-- The logo-merge step: `if logo_brand and logo_brand not in store_name:
store_name = f"{logo_brand} {store_name}".strip()`.  The heuristic
store-name extraction happens first, so the hint is prepended to an
already-normalized name and the result is not re-normalized. -/
def localStoreName (ocr_text logo_brand : String) : String :=
  let store := heuristic_extract_store_name ocr_text
  if logo_brand ≠ "" && !hasSubstr logo_brand.data store.data then
    strOf (stripL (logo_brand ++ " " ++ store).data)
  else store

/-- Lines 555–566 of `handle_image`: local header extraction with an
oracle fallback.  `oracleHeader` is the pair the Gemini header call would
return and `today` is `datetime.now().strftime("%Y-%m-%d")`; the `Bool`
records whether the oracle was invoked. -/
def resolveHeader (ocr_text logo_brand : String) (oracleHeader : String × String)
    (today : String) : String × String × Bool :=
  let store := localStoreName ocr_text logo_brand
  let date := extract_purchase_date_local ocr_text
  if store = "" || date = "" then
    let store2 := if store = "" then strOf (stripL (if oracleHeader.1 ≠ "" then oracleHeader.1 else store).data) else store
    let date2 := if date = "" then strOf (stripL (if oracleHeader.2 ≠ "" then oracleHeader.2 else today).data) else date
    (store2, date2, true)
  else (store, date, false)

/-- Scanner deciding that every whitespace character of a list is an ASCII
space and no two spaces are adjacent; the flag means "a space may not
occur here" (initially: no leading space). -/
def wsOkGo : Bool → List Char → Bool
  | _, [] => true
  | prev, c :: t =>
    if pyIsSpace c then c = ' ' && !prev && wsOkGo true t
    else wsOkGo false t

/-! ## Helper lemmas -/

theorem strOf_data (l : List Char) : (strOf l).data = l := rfl

theorem strOf_length (l : List Char) : (strOf l).length = l.length := rfl

theorem str_eq_of_data (s t : String) (h : s.data = t.data) : s = t := by
  cases s; cases t; simp_all

theorem hex8_length (n : Nat) : (hex8 n).length = 8 := rfl

theorem sha1Hexdigest_length (s : String) : (sha1Hexdigest s).length = 40 := by
  rcases hs : sha1 s with ⟨a, b, c, d, e⟩
  simp [sha1Hexdigest, hs, strOf_length, hex8]

theorem isoFmt_ne_empty (y mo d : Nat) : isoFmt y mo d ≠ "" := by
  intro h
  have hl := congrArg String.length h
  simp only [isoFmt, String.length_append,
    show ("-" : String).length = 1 from rfl,
    show ("" : String).length = 0 from rfl] at hl
  omega

/-- Shared shape of every tier's result: an accepted candidate is a
calendar-valid date rendered by `isoFmt`. -/
theorem acceptDate_some (o : Option (Nat × Nat × Nat)) (s : String)
    (h : acceptDate o = some s) :
    ∃ y mo d, dateOk y mo d = true ∧ s = isoFmt y mo d := by
  match o with
  | none => simp [acceptDate] at h
  | some (y, mo, d) =>
    refine ⟨y, mo, d, ?_⟩
    simp only [acceptDate] at h
    split at h
    · exact absurd h (by simp)
    · rename_i hne
      simp only [Option.some.injEq] at h
      subst h
      unfold toIsoDate at hne ⊢
      split at hne
      · rename_i hok
        simp [toIsoDate, hok]
      · simp at hne

theorem digest12_length (x : String) :
    (strOf ((sha1Hexdigest x).data.take 12)).length = 12 := by
  rw [strOf_length, List.length_take,
    show (sha1Hexdigest x).data.length = 40 from sha1Hexdigest_length x]
  rfl

theorem receiptId_decomp (d s : String) (t m : Option String) :
    ∃ G : String, build_receipt_id d s t m = d ++ "_" ++ strOf (stripL s.data) ++ "_" ++ G ∧
      G.length = 12 :=
  ⟨_, rfl, digest12_length _⟩

/-- C1, counterexample.  The claim says changing any single one of the
four inputs changes the output string, but `build_receipt_id` hashes only
the first 5000 characters of the OCR text: two different texts agreeing
on their first 5000 characters (here 5000 vs 5001 copies of `a`) give
byte-identical receipt ids. -/
theorem c1_receipt_id_counterexample :
    build_receipt_id "2025-09-28" "セブン-イレブン" (some (strOf (List.replicate 5000 'a'))) (some "msg") =
      build_receipt_id "2025-09-28" "セブン-イレブン" (some (strOf (List.replicate 5001 'a'))) (some "msg") ∧
    strOf (List.replicate 5000 'a') ≠ strOf (List.replicate 5001 'a') := by
  constructor
  · simp only [build_receipt_id, Option.getD_some, strOf_data]
    rw [show (List.replicate 5000 'a').take 5000 = (List.replicate 5001 'a').take 5000 by
      rw [List.take_replicate, List.take_replicate]
      rfl]
  · intro h
    have hl := congrArg String.length h
    rw [strOf_length, strOf_length, List.length_replicate, List.length_replicate] at hl
    omega

/-- C1, amended.  `build_receipt_id` is a pure function (hence repeated
calls with the same four inputs return byte-identical strings); its
output depends on the OCR text only through the text's first 5000
characters — so changing the text beyond that bound never changes the
output, refuting "changing any single input changes the output" — while
changing the purchase date alone always changes the output (the date is
a plain-text prefix and the hex digest has fixed length 12). -/
theorem c1_receipt_id_amended :
    (∀ d s t₁ t₂ m, (t₁.getD "").data.take 5000 = (t₂.getD "").data.take 5000 →
      build_receipt_id d s t₁ m = build_receipt_id d s t₂ m)
    ∧ (∀ d₁ d₂ s t m, build_receipt_id d₁ s t m = build_receipt_id d₂ s t m → d₁ = d₂) := by
  constructor
  · intro d s t₁ t₂ m h
    simp only [build_receipt_id]
    rw [h]
  · intro d₁ d₂ s t m h
    obtain ⟨G₁, hG₁, hL₁⟩ := receiptId_decomp d₁ s t m
    obtain ⟨G₂, hG₂, hL₂⟩ := receiptId_decomp d₂ s t m
    rw [hG₁, hG₂] at h
    have hlen := congrArg String.length h
    simp only [String.length_append, hL₁, hL₂] at hlen
    have hdl : d₁.data.length = d₂.data.length := by
      have e₁ : d₁.data.length = d₁.length := rfl
      have e₂ : d₂.data.length = d₂.length := rfl
      omega
    have hdata := congrArg String.data h
    simp only [String.data_append, List.append_assoc] at hdata
    exact str_eq_of_data d₁ d₂ (List.append_inj_left hdata hdl)

/-- C1, witness for the amended theorem. -/
theorem c1_receipt_id_witness :
    build_receipt_id "2025-09-28" "店" (some "x") (some "m") =
      build_receipt_id "2025-09-28" "店" (some "x") (some "m") ∧
    ("2025-09-28" : String) = "2025-09-28" :=
  ⟨c1_receipt_id_amended.1 "2025-09-28" "店" (some "x") (some "x") (some "m") rfl,
   c1_receipt_id_amended.2 "2025-09-28" "2025-09-28" "店" (some "x") (some "m") rfl⟩
theorem acceptDate_valid (o : Option (Nat × Nat × Nat)) (y mo d : Nat)
    (ho : o = some (y, mo, d)) (hok : dateOk y mo d = true) :
    acceptDate o = some (isoFmt y mo d) := by
  subst ho
  simp only [acceptDate, toIsoDate, hok, if_true]
  rw [if_neg (isoFmt_ne_empty y mo d)]

/-- C2: era-date extraction uses the exact epoch offsets (Reiwa year 1 =
2019, Heisei year 1 = 1989, Showa year 1 = 1926, for the glyph and the
letter spellings alike); whenever an era tier of
`extract_purchase_date_local` matches a valid (era, year, month, day),
it returns the ISO rendering of `epoch_offset + era_year`; and the
end-to-end extractor maps representative era dates of all three eras and
both spellings to the correct Gregorian ISO dates. -/
theorem c2_era_conversion :
    (∀ y, convertJapaneseEra "令和" y = 2018 + y ∧ convertJapaneseEra "R" y = 2018 + y ∧
      convertJapaneseEra "r" y = 2018 + y)
    ∧ (∀ y, convertJapaneseEra "平成" y = 1988 + y ∧ convertJapaneseEra "H" y = 1988 + y ∧
      convertJapaneseEra "h" y = 1988 + y)
    ∧ (∀ y, convertJapaneseEra "昭和" y = 1925 + y ∧ convertJapaneseEra "S" y = 1925 + y ∧
      convertJapaneseEra "s" y = 1925 + y)
    ∧ (convertJapaneseEra "令和" 1 = 2019 ∧ convertJapaneseEra "平成" 1 = 1989 ∧
      convertJapaneseEra "昭和" 1 = 1926)
    ∧ (∀ cs era ey mo d, scan3 cs = some (era, ey, mo, d) →
        dateOk (convertJapaneseEra era ey) mo d = true →
        tier3Result cs = some (isoFmt (convertJapaneseEra era ey) mo d))
    ∧ (∀ cs lt ey mo d, scan4 cs = some (lt, ey, mo, d) →
        dateOk (convertJapaneseEra (eraOfLetter lt) ey) mo d = true →
        tier4Result cs = some (isoFmt (convertJapaneseEra (eraOfLetter lt) ey) mo d))
    ∧ (∀ cs lt ey mo d, scan5 cs = some (lt, ey, mo, d) →
        dateOk (convertJapaneseEra (eraOfLetter lt) ey) mo d = true →
        tier5Result cs = some (isoFmt (convertJapaneseEra (eraOfLetter lt) ey) mo d))
    ∧ (extract_purchase_date_local "令和7年9月28日" = "2025-09-28" ∧
       extract_purchase_date_local "平成31年1月8日" = "2019-01-08" ∧
       extract_purchase_date_local "昭和64年1月7日" = "1989-01-07" ∧
       extract_purchase_date_local "R7.9.28" = "2025-09-28" ∧
       extract_purchase_date_local "H31年1月8日" = "2019-01-08" ∧
       extract_purchase_date_local "S64.1.7" = "1989-01-07") := by
  refine ⟨fun y => ⟨rfl, rfl, rfl⟩, fun y => ⟨rfl, rfl, rfl⟩, fun y => ⟨rfl, rfl, rfl⟩,
    ⟨rfl, rfl, rfl⟩, ?_, ?_, ?_, by decide⟩
  · intro cs era ey mo d hscan hok
    unfold tier3Result
    rw [hscan]
    exact acceptDate_valid _ _ _ _ rfl hok
  · intro cs lt ey mo d hscan hok
    unfold tier4Result
    rw [hscan]
    exact acceptDate_valid _ _ _ _ rfl hok
  · intro cs lt ey mo d hscan hok
    unfold tier5Result
    rw [hscan]
    exact acceptDate_valid _ _ _ _ rfl hok

/-- C2, witness: the era-tier theorems applied at concrete scans. -/
theorem c2_era_conversion_witness :
    tier3Result "令和1年5月1日".data = some (isoFmt (convertJapaneseEra "令和" 1) 5 1) ∧
    tier4Result "R1.5.1".data = some (isoFmt (convertJapaneseEra (eraOfLetter 'R') 1) 5 1) ∧
    tier5Result "H1年5月1日".data = some (isoFmt (convertJapaneseEra (eraOfLetter 'H') 1) 5 1) :=
  ⟨c2_era_conversion.2.2.2.2.1 _ "令和" 1 5 1 (by decide) (by decide),
   c2_era_conversion.2.2.2.2.2.1 _ 'R' 1 5 1 (by decide) (by decide),
   c2_era_conversion.2.2.2.2.2.2.1 _ 'H' 1 5 1 (by decide) (by decide)⟩
/-- Any tier cascade result is empty or a validated ISO date. -/
theorem dateCascade_shape (cs : List Char) :
    dateCascade cs = "" ∨ ∃ y mo d, dateOk y mo d = true ∧ dateCascade cs = isoFmt y mo d := by
  unfold dateCascade tiersFrom2
  rcases h1 : tier1Result cs with _ | i1
  · rcases h2 : tier2Result cs with _ | i2
    · rcases h3 : tier3Result cs with _ | i3
      · rcases h4 : tier4Result cs with _ | i4
        · rcases h5 : tier5Result cs with _ | i5
          · exact Or.inl rfl
          · obtain ⟨y, mo, d, hok, he⟩ := acceptDate_some _ _ h5
            exact Or.inr ⟨y, mo, d, hok, he⟩
        · obtain ⟨y, mo, d, hok, he⟩ := acceptDate_some _ _ h4
          exact Or.inr ⟨y, mo, d, hok, he⟩
      · obtain ⟨y, mo, d, hok, he⟩ := acceptDate_some _ _ h3
        exact Or.inr ⟨y, mo, d, hok, he⟩
    · obtain ⟨y, mo, d, hok, he⟩ := acceptDate_some _ _ h2
      exact Or.inr ⟨y, mo, d, hok, he⟩
  · obtain ⟨y, mo, d, hok, he⟩ := acceptDate_some _ _ h1
    exact Or.inr ⟨y, mo, d, hok, he⟩

/-- C3: the date extractor is a total function whose result is either the
empty string or the ISO rendering of a calendar-valid date (so an invalid
candidate such as month 13 never surfaces and nothing is raised); a tier
whose single leftmost match fails `_to_iso_date` validation contributes
nothing (the cascade then continues with the later tiers); a year-0
candidate (as produced by an unknown era) never validates; and when every
tier fails the extractor returns the empty string. -/
theorem c3_extractor_total_and_validated :
    (∀ ocr, extract_purchase_date_local ocr = "" ∨
      ∃ y mo d, dateOk y mo d = true ∧ extract_purchase_date_local ocr = isoFmt y mo d)
    ∧ (∀ cs y mo d, scan1 cs = some (y, mo, d) → toIsoDate y mo d = "" → tier1Result cs = none)
    ∧ (∀ mo d, toIsoDate 0 mo d = "")
    ∧ (∀ ocr, tier1Result (preprocessDateText ocr.data) = none →
        tier2Result (preprocessDateText ocr.data) = none →
        tier3Result (preprocessDateText ocr.data) = none →
        tier4Result (preprocessDateText ocr.data) = none →
        tier5Result (preprocessDateText ocr.data) = none →
        extract_purchase_date_local ocr = "") := by
  refine ⟨?_, ?_, ?_, ?_⟩
  · intro ocr
    unfold extract_purchase_date_local
    split
    · exact Or.inl rfl
    · exact dateCascade_shape _
  · intro cs y mo d hscan hbad
    unfold tier1Result
    rw [hscan]
    simp [acceptDate, hbad]
  · intro mo d
    simp [toIsoDate, dateOk]
  · intro ocr h1 h2 h3 h4 h5
    unfold extract_purchase_date_local
    split
    · rfl
    · unfold dateCascade tiersFrom2
      rw [h1, h2, h3, h4, h5]

/-- C3, witness: on `"2025/13/40"` tier 1 matches but fails validation and
every later tier fails, so the extractor returns the empty string. -/
theorem c3_extractor_witness :
    tier1Result (preprocessDateText ("2025/13/40" : String).data) = none ∧
    extract_purchase_date_local "2025/13/40" = "" :=
  ⟨c3_extractor_total_and_validated.2.1 _ 2025 13 40 (by decide) (by decide),
   c3_extractor_total_and_validated.2.2.2 "2025/13/40"
     (c3_extractor_total_and_validated.2.1 _ 2025 13 40 (by decide) (by decide))
     (by decide) (by decide) (by decide) (by decide)⟩
/-- C10: within a tier only the leftmost match counts.  When the leftmost
tier-1 match of a text fails calendar validation, the extractor proceeds
with tiers 2–5 only (it never rescans tier 1 further right); concretely,
`"2025/13/01 2025/9/28"` contains the valid tier-1 date `"2025/9/28"`
(which alone extracts to `"2025-09-28"`), yet extraction returns the
empty string because the leftmost tier-1 match `2025/13/...` is invalid
and no other tier matches. -/
theorem c10_leftmost_match_only :
    (∀ ocr y mo d, ocr ≠ "" → scan1 (preprocessDateText ocr.data) = some (y, mo, d) →
      toIsoDate y mo d = "" →
      extract_purchase_date_local ocr = tiersFrom2 (preprocessDateText ocr.data))
    ∧ hasSubstr ("2025/9/28" : String).data ("2025/13/01 2025/9/28" : String).data = true
    ∧ extract_purchase_date_local "2025/13/01 2025/9/28" = ""
    ∧ extract_purchase_date_local "2025/9/28" = "2025-09-28" := by
  refine ⟨?_, by decide, by decide, by decide⟩
  intro ocr y mo d hne hscan hbad
  unfold extract_purchase_date_local
  rw [if_neg hne]
  unfold dateCascade tier1Result
  rw [hscan]
  simp [acceptDate, hbad]

/-- C10, witness: the fall-through equation applied to the concrete text. -/
theorem c10_leftmost_match_only_witness :
    extract_purchase_date_local "2025/13/01 2025/9/28" =
      tiersFrom2 (preprocessDateText ("2025/13/01 2025/9/28" : String).data) :=
  c10_leftmost_match_only.1 "2025/13/01 2025/9/28" 2025 13 1 (by decide) (by decide) (by decide)
theorem hasSubstr_iff (pat l : List Char) : hasSubstr pat l = true ↔ pat <:+: l := by
  induction l with
  | nil =>
    simp only [hasSubstr, List.isEmpty_iff, List.infix_nil]
  | cons c t ih =>
    simp only [hasSubstr, Bool.or_eq_true, List.isPrefixOf_iff_prefix, ih,
      List.infix_cons_iff]

theorem stripL_contained (l : List Char) : stripL l <:+: l := by
  unfold stripL
  have h1 : l.dropWhile pyIsSpace <:+ l := List.dropWhile_suffix _
  have h2 : (l.dropWhile pyIsSpace).reverse.dropWhile pyIsSpace <:+
      (l.dropWhile pyIsSpace).reverse := List.dropWhile_suffix _
  have h3 : ((l.dropWhile pyIsSpace).reverse.dropWhile pyIsSpace).reverse <+:
      l.dropWhile pyIsSpace := by
    rw [← List.reverse_suffix]
    simpa using h2
  exact h3.isInfix.trans h1.isInfix

theorem merchant_keys_ne_nil : ∀ p ∈ MERCHANT_MAP, p.1.data ≠ [] := by decide

/-- C4: when the store name contains a key of the merchant dictionary,
classification returns that dictionary entry's category with confidence
exactly 1.0 and provenance `"rule"`, for every item name, and the AI
oracle tier is never consulted (the result is the same for every possible
oracle reply). -/
theorem c4_merchant_rule_wins (store item : String)
    (h : ∃ p, p ∈ MERCHANT_MAP ∧ hasSubstr p.1.data store.data = true) :
    ∃ p, p ∈ MERCHANT_MAP ∧ hasSubstr p.1.data store.data = true ∧
      ∀ amount parsed, classify_category store item amount parsed = (p.2, 1, "rule") := by
  obtain ⟨p, hmem, hsub⟩ := h
  have hsome : (MERCHANT_MAP.find? (fun q =>
      q.1.data.isPrefixOf (stripL store.data) || hasSubstr q.1.data store.data)).isSome := by
    refine List.find?_isSome.mpr ⟨p, hmem, ?_⟩
    simp [hsub]
  obtain ⟨q, hfind⟩ := Option.isSome_iff_exists.mp hsome
  have hq_pred := List.find?_some hfind
  have hq_mem := List.mem_of_find?_eq_some hfind
  have hor : q.1.data.isPrefixOf (stripL store.data) = true ∨
      hasSubstr q.1.data store.data = true := by
    simpa using hq_pred
  have hq_sub : hasSubstr q.1.data store.data = true := by
    rcases hor with hpre | hsub2
    · exact (hasSubstr_iff _ _).mpr
        (((List.isPrefixOf_iff_prefix.mp hpre).isInfix).trans (stripL_contained _))
    · exact hsub2
  have hne : store ≠ "" := by
    intro he
    subst he
    rcases hor with hpre | hsub2
    · exact merchant_keys_ne_nil q hq_mem
        (List.prefix_nil.mp (List.isPrefixOf_iff_prefix.mp hpre))
    · exact merchant_keys_ne_nil q hq_mem (by simpa [hasSubstr, List.isEmpty_iff] using hsub2)
  refine ⟨q, hq_mem, hq_sub, ?_⟩
  intro amount parsed
  simp [classify_category, rule_classify, hne, hfind]

/-- C4, witness. -/
theorem c4_merchant_rule_wins_witness :
    ∃ p, p ∈ MERCHANT_MAP ∧ hasSubstr p.1.data ("コーナン港北店" : String).data = true ∧
      ∀ amount parsed,
        classify_category "コーナン港北店" "ドッグフード" amount parsed = (p.2, 1, "rule") :=
  c4_merchant_rule_wins "コーナン港北店" "ドッグフード"
    ⟨("コーナン", "犬関係"), by decide, by decide⟩
theorem merchant_values_allowed : ∀ p ∈ MERCHANT_MAP, p.2 ∈ ALLOWED_CATEGORIES := by decide

theorem keyword_values_allowed : ∀ g ∈ KEYWORD_RULES, g.2 ∈ ALLOWED_CATEGORIES := by decide

theorem rule_classify_allowed (s i : String) (r : String × ℚ × String)
    (h : rule_classify s i = some r) : r.1 ∈ ALLOWED_CATEGORIES := by
  simp only [rule_classify] at h
  split at h
  · rename_i r0 heq
    simp only [Option.some.injEq] at h
    subst h
    split at heq
    · exact absurd heq (by simp)
    · split at heq
      · rename_i p hfind
        simp only [Option.some.injEq] at heq
        subst heq
        exact merchant_values_allowed p (List.mem_of_find?_eq_some hfind)
      · split at heq
        · simp only [Option.some.injEq] at heq
          subst heq
          decide
        · split at heq
          · simp only [Option.some.injEq] at heq
            subst heq
            decide
          · split at heq
            · simp only [Option.some.injEq] at heq
              subst heq
              decide
            · split at heq
              · simp only [Option.some.injEq] at heq
                subst heq
                decide
              · exact absurd heq (by simp)
  · split at h
    · rename_i g hfind
      simp only [Option.some.injEq] at h
      subst h
      exact keyword_values_allowed g (List.mem_of_find?_eq_some hfind)
    · exact absurd h (by simp)

/-- C5: every category produced by classification is a member of the fixed
closed category set — for the AI tier under every possible oracle parse
outcome, with any label outside the set coerced to `"その他"`, and for the
whole two-tier cascade on every input. -/
theorem c5_closed_category_set :
    (∀ parsed, (ai_classify parsed).1 ∈ ALLOWED_CATEGORIES)
    ∧ (∀ dta c, dta.category = some c → c ∉ ALLOWED_CATEGORIES →
        (ai_classify (some dta)).1 = "その他")
    ∧ (∀ s i amount parsed, (classify_category s i amount parsed).1 ∈ ALLOWED_CATEGORIES) := by
  have hai : ∀ parsed, (ai_classify parsed).1 ∈ ALLOWED_CATEGORIES := by
    intro parsed
    simp only [ai_classify]
    split
    · rename_i hc
      simpa using hc
    · decide
  refine ⟨hai, ?_, ?_⟩
  · intro dta c hcat hnotin
    simp only [ai_classify, hcat, Option.getD_some]
    rw [if_neg]
    intro hcontains
    exact hnotin (by simpa using hcontains)
  · intro s i amount parsed
    rcases hr : rule_classify s i with _ | r
    · simpa [classify_category, hr] using hai parsed
    · have := rule_classify_allowed s i r hr
      simpa [classify_category, hr] using this

/-- C5, witness: an oracle label outside the closed set is coerced. -/
theorem c5_closed_category_set_witness :
    (ai_classify (some ⟨some "ランチ", none⟩)).1 = "その他" :=
  c5_closed_category_set.2.1 ⟨some "ランチ", none⟩ "ランチ" rfl (by decide)
/-- C6: the header resolver computes the store name and date locally first
and invokes the oracle's header-extraction mode exactly when the locally
extracted store name or date is empty; when both are nonempty the result
is the local pair untouched; and on OCR text containing the known
merchant `セブン-イレブン` with a `2025/9/28` date, the local heuristics
alone produce the header with no oracle call. -/
theorem c6_header_local_first :
    (∀ ocr logo orc today, (resolveHeader ocr logo orc today).2.2 = false ↔
      (localStoreName ocr logo ≠ "" ∧ extract_purchase_date_local ocr ≠ ""))
    ∧ (∀ ocr logo orc today, (resolveHeader ocr logo orc today).2.2 = false →
        resolveHeader ocr logo orc today =
          (localStoreName ocr logo, extract_purchase_date_local ocr, false))
    ∧ resolveHeader "セブン-イレブン大阪梅田店\n2025/9/28 12:34" "" ("", "") "2026-02-03" =
        ("セブン-イレブン大阪梅田店", "2025-09-28", false) := by
  refine ⟨?_, ?_, by decide⟩
  · intro ocr logo orc today
    by_cases h1 : localStoreName ocr logo = "" <;>
      by_cases h2 : extract_purchase_date_local ocr = "" <;>
        simp [resolveHeader, h1, h2]
  · intro ocr logo orc today hfalse
    by_cases h1 : localStoreName ocr logo = "" <;>
      by_cases h2 : extract_purchase_date_local ocr = "" <;>
        simp_all [resolveHeader, h1, h2]

/-- C6, witness: the no-oracle equations applied at the concrete text. -/
theorem c6_header_local_first_witness :
    resolveHeader "セブン-イレブン大阪梅田店\n2025/9/28 12:34" "" ("今日の店", "1999-01-01") "2026-02-03" =
      (localStoreName "セブン-イレブン大阪梅田店\n2025/9/28 12:34" "",
        extract_purchase_date_local "セブン-イレブン大阪梅田店\n2025/9/28 12:34", false) :=
  c6_header_local_first.2.1 "セブン-イレブン大阪梅田店\n2025/9/28 12:34" ""
    ("今日の店", "1999-01-01") "2026-02-03" (by decide)
theorem itemsRowStep_length (row : List (List Char)) (r : List String)
    (h : itemsRowStep row = some r) : r.length = 2 := by
  match row with
  | [] => simp [itemsRowStep] at h
  | [f0] => simp [itemsRowStep] at h
  | f0 :: f1 :: rest =>
    simp only [itemsRowStep] at h
    split at h
    · exact absurd h (by simp)
    · simp only [Option.some.injEq] at h
      subst h
      rfl

/-- C7: `parse_items_csv` strips code-fence markup, discards rows with
fewer than two fields, skips the `商品`/`価格` header row (substring
check), trims the two retained fields; on the fenced example it yields
exactly the two candidates in order, and every emitted row has exactly
two fields. -/
theorem c7_parse_items_csv :
    parse_items_csv "```\n商品, 価格\nおにぎり, 128\n牛乳,198\n```" =
      [["おにぎり", "128"], ["牛乳", "198"]]
    ∧ (∀ t r, r ∈ parse_items_csv t → r.length = 2) := by
  refine ⟨by decide, ?_⟩
  intro t r hr
  simp only [parse_items_csv, List.mem_filterMap] at hr
  obtain ⟨row, _, hstep⟩ := hr
  exact itemsRowStep_length row r hstep

/-- C7, witness. -/
theorem c7_parse_items_csv_witness :
    (["おにぎり", "128"] : List String).length = 2 :=
  c7_parse_items_csv.2 "おにぎり, 128" ["おにぎり", "128"] (by decide)
theorem head_dropWhile_not (p : Char → Bool) (l : List Char) :
    ∀ c, ((l.dropWhile p).head? = some c) → p c = false := by
  induction l with
  | nil => intro c h; simp at h
  | cons a t ih =>
    intro c h
    rw [List.dropWhile_cons] at h
    by_cases hp : p a
    · rw [if_pos hp] at h
      exact ih c h
    · rw [if_neg hp] at h
      simp only [List.head?_cons, Option.some.injEq] at h
      subst h
      simpa using hp

theorem wsOkGo_nil (b : Bool) : wsOkGo b [] = true := rfl

theorem wsOkGo_cons (b : Bool) (c : Char) (t : List Char) :
    wsOkGo b (c :: t) =
      if pyIsSpace c then (decide (c = ' ') && !b && wsOkGo true t) else wsOkGo false t := by
  simp only [wsOkGo]

theorem collapseGo_zero (l : List Char) : collapseGo 0 l = [] := by
  cases l <;> simp only [collapseGo]

theorem collapseGo_cons (f : Nat) (c : Char) (t : List Char) :
    collapseGo (f + 1) (c :: t) =
      if pyIsSpace c then ' ' :: collapseGo f (t.dropWhile pyIsSpace)
      else c :: collapseGo f t := by
  simp only [collapseGo]

theorem collapseGo_wsOk (f : Nat) :
    (∀ l, wsOkGo false (collapseGo f l) = true) ∧
    (∀ l, (∀ c, l.head? = some c → pyIsSpace c = false) →
      wsOkGo true (collapseGo f l) = true) := by
  induction f with
  | zero =>
    exact ⟨fun l => by rw [collapseGo_zero]; rfl, fun l _ => by rw [collapseGo_zero]; rfl⟩
  | succ f ih =>
    constructor
    · intro l
      cases l with
      | nil => rfl
      | cons c t =>
        rw [collapseGo_cons]
        by_cases hc : pyIsSpace c
        · rw [if_pos hc, wsOkGo_cons, if_pos (show pyIsSpace ' ' = true by decide)]
          have hrest := ih.2 (t.dropWhile pyIsSpace) (head_dropWhile_not pyIsSpace t)
          simp [hrest]
        · rw [if_neg hc, wsOkGo_cons, if_neg hc]
          exact ih.1 t
    · intro l hhead
      cases l with
      | nil => rfl
      | cons c t =>
        have hc : pyIsSpace c = false := hhead c rfl
        rw [collapseGo_cons, if_neg (by simp [hc]), wsOkGo_cons, if_neg (by simp [hc])]
        exact ih.1 t

theorem wsOkGo_append (l₁ : List Char) : ∀ (b : Bool) (l₂ : List Char),
    wsOkGo b (l₁ ++ l₂) = true → wsOkGo b l₁ = true := by
  induction l₁ with
  | nil => intro b l₂ _; rfl
  | cons c t ih =>
    intro b l₂ h
    rw [List.cons_append, wsOkGo_cons] at h
    rw [wsOkGo_cons]
    by_cases hc : pyIsSpace c
    · rw [if_pos hc] at h ⊢
      simp only [Bool.and_eq_true] at h ⊢
      exact ⟨h.1, ih true l₂ h.2⟩
    · rw [if_neg hc] at h ⊢
      exact ih false l₂ h

theorem dropWhile_of_wsOkTrue (t : List Char) (h : wsOkGo true t = true) :
    t.dropWhile pyIsSpace = t := by
  cases t with
  | nil => rfl
  | cons c tt =>
    by_cases hc : pyIsSpace c
    · rw [wsOkGo_cons, if_pos hc] at h
      simp at h
    · rw [List.dropWhile_cons, if_neg hc]

theorem wsOkGo_dropWhile (x : List Char) (h : wsOkGo false x = true) :
    wsOkGo true (x.dropWhile pyIsSpace) = true := by
  cases x with
  | nil => rfl
  | cons c t =>
    by_cases hc : pyIsSpace c
    · rw [wsOkGo_cons, if_pos hc] at h
      simp only [Bool.and_eq_true] at h
      rw [List.dropWhile_cons, if_pos hc, dropWhile_of_wsOkTrue t h.2]
      exact h.2
    · rw [wsOkGo_cons, if_neg hc] at h
      rw [List.dropWhile_cons, if_neg hc, wsOkGo_cons, if_neg hc]
      exact h

theorem wsOkGo_stripL (x : List Char) (h : wsOkGo false x = true) :
    wsOkGo true (stripL x) = true := by
  unfold stripL
  have hu : wsOkGo true (x.dropWhile pyIsSpace) = true := wsOkGo_dropWhile x h
  have hpre : ((x.dropWhile pyIsSpace).reverse.dropWhile pyIsSpace).reverse <+:
      x.dropWhile pyIsSpace := by
    rw [← List.reverse_suffix]
    simpa using List.dropWhile_suffix (l := (x.dropWhile pyIsSpace).reverse) (p := pyIsSpace)
  obtain ⟨tail, htail⟩ := hpre
  rw [← htail] at hu
  exact wsOkGo_append _ true tail hu

theorem wsOkGo_take (n : Nat) (x : List Char) (h : wsOkGo true x = true) :
    wsOkGo true (x.take n) = true := by
  have hsplit := List.take_append_drop n x
  rw [← hsplit] at h
  exact wsOkGo_append _ true _ h

theorem stripL_length_le (l : List Char) : (stripL l).length ≤ l.length := by
  unfold stripL
  calc ((l.dropWhile pyIsSpace).reverse.dropWhile pyIsSpace).reverse.length
      = ((l.dropWhile pyIsSpace).reverse.dropWhile pyIsSpace).length := List.length_reverse _
    _ ≤ (l.dropWhile pyIsSpace).reverse.length :=
        (List.dropWhile_suffix pyIsSpace).length_le
    _ = (l.dropWhile pyIsSpace).length := List.length_reverse _
    _ ≤ l.length := (List.dropWhile_suffix pyIsSpace).length_le

theorem normalize_le50 (raw : String) : (normalize_store_name raw).length ≤ 50 := by
  simp only [normalize_store_name]
  split
  · simp
  · rw [strOf_length]
    exact List.length_take_le _ _

theorem normalize_wsOk (raw : String) :
    wsOkGo true (normalize_store_name raw).data = true := by
  simp only [normalize_store_name]
  split
  · rfl
  · rw [strOf_data]
    exact wsOkGo_take _ _ (wsOkGo_stripL _ ((collapseGo_wsOk _).1 _))

theorem heuristicTail_le50 (text lower : List Char) :
    (heuristicTail text lower).length ≤ 50 := by
  simp only [heuristicTail]
  split
  · exact normalize_le50 _
  · split
    · exact normalize_le50 _
    · exact normalize_le50 _

theorem heuristic_le50 (ocr : String) : (heuristic_extract_store_name ocr).length ≤ 50 := by
  simp only [heuristic_extract_store_name]
  split
  · simp
  · split
    · split
      · exact normalize_le50 _
      · exact heuristicTail_le50 _ _
    · exact heuristicTail_le50 _ _
/-- C8, counterexample.  The brand hint is prepended after normalization,
not before: with a 50-character normalized logo brand and a 50-character
extracted store name not containing it, the final store name of the
header step has length 101, violating the claimed 50-character bound. -/
theorem c8_store_name_counterexample :
    normalize_store_name (strOf (List.replicate 50 'B')) = strOf (List.replicate 50 'B') ∧
    heuristic_extract_store_name (strOf (List.replicate 50 'A')) = strOf (List.replicate 50 'A') ∧
    50 < (localStoreName (strOf (List.replicate 50 'A')) (strOf (List.replicate 50 'B'))).length := by
  refine ⟨by decide, by decide, by decide⟩

/-- C8, amended.  Every name returned by `normalize_store_name` (and hence
by the store-name extractor, whose every return path normalizes) is
whitespace-collapsed to single ASCII spaces with no leading space, and
truncated to at most 50 characters; a brand hint not already contained in
the extracted name is prepended space-joined AFTER this normalization
(the concatenation is merely stripped, not re-normalized), so the final
header store name is only bounded by 101 characters, not 50. -/
theorem c8_store_name_amended :
    (∀ raw, (normalize_store_name raw).length ≤ 50 ∧
      wsOkGo true (normalize_store_name raw).data = true)
    ∧ (∀ ocr, (heuristic_extract_store_name ocr).length ≤ 50)
    ∧ (∀ ocr logo, logo ≠ "" →
        hasSubstr logo.data (heuristic_extract_store_name ocr).data = false →
        localStoreName ocr logo =
          strOf (stripL (logo ++ " " ++ heuristic_extract_store_name ocr).data))
    ∧ (∀ ocr logo, logo.length ≤ 50 → (localStoreName ocr logo).length ≤ 101) := by
  refine ⟨fun raw => ⟨normalize_le50 raw, normalize_wsOk raw⟩, heuristic_le50, ?_, ?_⟩
  · intro ocr logo h1 h2
    simp only [localStoreName]
    rw [if_pos (by simp [h1, h2])]
  · intro ocr logo hl
    simp only [localStoreName]
    split
    · rw [strOf_length]
      have hA := stripL_length_le (logo ++ " " ++ heuristic_extract_store_name ocr).data
      have hB : (logo ++ " " ++ heuristic_extract_store_name ocr).data.length =
          logo.length + 1 + (heuristic_extract_store_name ocr).length := by
        show (logo ++ " " ++ heuristic_extract_store_name ocr).length = _
        rw [String.length_append, String.length_append,
          show (" " : String).length = 1 from rfl]
      have hh := heuristic_le50 ocr
      omega
    · exact le_trans (heuristic_le50 ocr) (by omega)

/-- C8, witness. -/
theorem c8_store_name_amended_witness :
    (normalize_store_name "株式会社テスト  ストア").length ≤ 50 ∧
    localStoreName "カフェあいうえお\n何とか店" "ロゴ" =
      strOf (stripL ("ロゴ" ++ " " ++ heuristic_extract_store_name "カフェあいうえお\n何とか店").data) ∧
    (localStoreName "x" "ロゴ").length ≤ 101 :=
  ⟨(c8_store_name_amended.1 "株式会社テスト  ストア").1,
   c8_store_name_amended.2.2.1 "カフェあいうえお\n何とか店" "ロゴ" (by decide) (by decide),
   c8_store_name_amended.2.2.2 "x" "ロゴ" (by decide)⟩
theorem scanHead_combines : ∀ (lines : List (List Char)) (branch brand c : List Char),
    scanHead lines branch brand = some c →
    (branch = [] ∨ isBranchLine branch = true) →
    (brand = [] ∨ isBrandLine brand = true) →
    ∃ b r, isBrandLine b = true ∧ isBranchLine r = true ∧ c = combineBrandBranch b r := by
  intro lines
  induction lines with
  | nil =>
    intro branch brand c h _ _
    simp [scanHead] at h
  | cons ln rest ih =>
    intro branch brand c h hbranch hbrand
    simp only [scanHead] at h
    split at h
    · exact ih branch brand c h hbranch hbrand
    · split at h
      · exact ih branch brand c h hbranch hbrand
      · by_cases hbl : isBranchLine ln = true <;> by_cases hbr : isBrandLine ln = true <;>
          simp only [hbl, hbr, if_true, if_false, Bool.false_eq_true] at h <;>
          split at h
        · simp only [Option.some.injEq] at h
          exact ⟨ln, ln, hbr, hbl, h.symm⟩
        · exact ih _ _ c h (Or.inr hbl) (Or.inr hbr)
        · rename_i hcond
          simp only [Bool.and_eq_true, Bool.not_eq_true', List.isEmpty_eq_false, ne_eq] at hcond
          simp only [Option.some.injEq] at h
          rcases hbrand with he | hb
          · exact absurd he hcond.2
          · exact ⟨brand, ln, hb, hbl, h.symm⟩
        · exact ih _ _ c h (Or.inr hbl) hbrand
        · rename_i hcond
          simp only [Bool.and_eq_true, Bool.not_eq_true', List.isEmpty_eq_false, ne_eq] at hcond
          simp only [Option.some.injEq] at h
          rcases hbranch with he | hr
          · exact absurd he hcond.1
          · exact ⟨ln, branch, hbr, hr, h.symm⟩
        · exact ih _ _ c h hbranch (Or.inr hbr)
        · rename_i hcond
          simp only [Bool.and_eq_true, Bool.not_eq_true', List.isEmpty_eq_false, ne_eq] at hcond
          simp only [Option.some.injEq] at h
          rcases hbranch with he | hr
          · exact absurd he hcond.1
          · rcases hbrand with he2 | hb
            · exact absurd he2 hcond.2
            · exact ⟨brand, branch, hb, hr, h.symm⟩
        · exact ih _ _ c h hbranch hbrand

/-- C9, amended.  When the heading heuristic fires with both a
branch-style and a brand-style line, the candidate is not "the longer
line as base with the other appended": it is the brand-style line alone
whenever that line is at least as long as the branch-style line, and
otherwise the brand-style line followed (space-joined) by the
branch-style line, before normalization. -/
theorem c9_heading_combination (ocr : String) (c : List Char)
    (hne : ocr ≠ "")
    (hm : merchantLoop MERCHANT_MAP (stripL ocr.data) = none)
    (he : englishHit (asciiLower (stripL ocr.data)) = none)
    (hs : scanHead (headLines (stripL ocr.data)) [] [] = some c) :
    ∃ b r, isBrandLine b = true ∧ isBranchLine r = true ∧ c = combineBrandBranch b r ∧
      heuristic_extract_store_name ocr = normalize_store_name (strOf (combineBrandBranch b r)) := by
  obtain ⟨b, r, hb, hr, hc⟩ := scanHead_combines _ [] [] c hs (Or.inl rfl) (Or.inl rfl)
  refine ⟨b, r, hb, hr, hc, ?_⟩
  simp only [heuristic_extract_store_name, if_neg hne, hm, heuristicTail, he, hs]
  rw [← hc]

/-- C9, counterexample.  In `"カフェあいうえお\n何とか店"` the head scan finds
the brand-style line `カフェあいうえお` and the branch-style line `何とか店`,
and the brand-style line is the longer of the two; the claim then demands
the combined candidate `カフェあいうえお 何とか店`, but the code returns the
brand-style line alone. -/
theorem c9_heading_combination_counterexample :
    isBrandLine ("カフェあいうえお" : String).data = true ∧
    isBranchLine ("何とか店" : String).data = true ∧
    ("何とか店" : String).data.length ≤ ("カフェあいうえお" : String).data.length ∧
    headLines (stripL ("カフェあいうえお\n何とか店" : String).data) =
      [("カフェあいうえお" : String).data, ("何とか店" : String).data] ∧
    heuristic_extract_store_name "カフェあいうえお\n何とか店" = "カフェあいうえお" ∧
    heuristic_extract_store_name "カフェあいうえお\n何とか店" ≠
      normalize_store_name "カフェあいうえお 何とか店" := by
  exact ⟨by decide, by decide, by decide, by decide, by decide, by decide⟩

/-- C9, witness for the amended theorem. -/
theorem c9_heading_combination_witness :
    ∃ b r, isBrandLine b = true ∧ isBranchLine r = true ∧
      ("カフェあいうえお" : String).data = combineBrandBranch b r ∧
      heuristic_extract_store_name "カフェあいうえお\n何とか店" =
        normalize_store_name (strOf (combineBrandBranch b r)) :=
  c9_heading_combination "カフェあいうえお\n何とか店" ("カフェあいうえお" : String).data
    (by decide) (by decide) (by decide) (by decide)
